import Mathlib

/-!
Shallow embedding of the GitHub status-reporting core
(pkg/provider/github/status.go) of pipelines-as-code, together with
theorems settling the specification claims about it.

External collaborators (the Go regexp engine, the Kubernetes log source,
the hosting-service client, the tekton run-object predicates) are modelled
as explicit inputs: the compiled regex is an abstract matcher record, the
hosting-service responses live in an environment record, and the effect of
each reconciliation is captured as a trace of the calls it issues.
-/

set_option autoImplicit false

namespace PaC

/-- Character-list comparison underlying the Go prefix test. -/
def isPrefixChars : List Char → List Char → Bool
  | [], _ => true
  | _ :: _, [] => false
  | a :: as, b :: bs => a = b && isPrefixChars as bs

/-- Character-list search underlying Go strings.Contains. -/
def containsChars (sub : List Char) : List Char → Bool
  | [] => decide (sub = [])
  | c :: cs => isPrefixChars sub (c :: cs) || containsChars sub cs

/-- Splitting on a nonempty separator, fuel-structured so that it reduces
in the kernel; fuel is instantiated with the input length, which always
suffices. -/
def splitAux (sep : List Char) : Nat → List Char → List Char → List (List Char)
  | _, [], acc => [acc.reverse]
  | 0, cs, acc => [acc.reverse ++ cs]
  | fuel + 1, c :: cs, acc =>
    if isPrefixChars sep (c :: cs) then
      acc.reverse :: splitAux sep fuel ((c :: cs).drop sep.length) []
    else splitAux sep fuel cs (c :: acc)

/-- Model of Go strings.Split for the nonempty separators this core uses. -/
def splitOnGo (s sep : String) : List String :=
  if sep.data = [] then [s]
  else (splitAux sep.data s.data.length s.data []).map (fun l => ⟨l⟩)

/-- Digit-run parser underlying the Atoi model. -/
def parseDigitsAux : List Char → Nat → Option Nat
  | [], acc => some acc
  | c :: cs, acc =>
    if c.isDigit then parseDigitsAux cs (acc * 10 + (c.toNat - 48)) else none

/-- A nonempty all-digit run parsed as a Nat, none otherwise. -/
def parseDigits : List Char → Option Nat
  | [] => none
  | c :: cs => parseDigitsAux (c :: cs) 0

/-- 64-bit range guard of Go strconv.Atoi. -/
def atoiRange (v : Int) : Option Int :=
  if v < -9223372036854775808 ∨ v > 9223372036854775807 then none else some v

/-- Model of Go strconv.Atoi on a decimal string: optional sign, digits,
64-bit range check. Returns none exactly when Go returns a non-nil error. -/
def goAtoi (s : String) : Option Int :=
  match s.data with
  | [] => none
  | c :: cs =>
    if c = '-' then (parseDigits cs).bind (fun n => atoiRange (-(n : Int)))
    else if c = '+' then (parseDigits cs).bind (fun n => atoiRange (n : Int))
    else (parseDigits (c :: cs)).bind (fun n => atoiRange (n : Int))

/-- Model of Go strings.TrimPrefix. -/
def trimPrefixGo (s pre : String) : String :=
  if isPrefixChars pre.data s.data then ⟨s.data.drop pre.data.length⟩ else s

/-- Model of Go strings.Contains. -/
def goContains (s sub : String) : Bool :=
  containsChars sub.data s.data

/-- Lookup in a Go string map rendered as an association list. -/
def lookupLabel (labels : List (String × String)) (k : String) : Option String :=
  (labels.find? (fun p => p.1 == k)).map (fun p => p.2)

/-- Abstract view of a compiled Go regexp: its SubexpNames table and its
FindStringSubmatch behaviour (none when the line does not match; on a match,
the list holds the whole match at index 0 followed by the group captures).
The regex engine itself is an external collaborator. -/
structure GoRegex where
  subexpNames : List String
  find : String → Option (List String)

/-- Model of regexp MatchString, consistent with FindStringSubmatch. -/
def matchString (r : GoRegex) (s : String) : Bool :=
  (r.find s).isSome

/-- One github.CheckRunAnnotation as built by the extractor. -/
structure AnnotationRecord where
  path : String
  startLine : Int
  endLine : Int
  annotationLevel : String
  message : String
deriving DecidableEq

/-- One failed-task log snippet as returned by the external log source
(kstatus.CollectFailedTasksLogSnippet). -/
structure TaskInfo where
  logSnippet : String
deriving DecidableEq

/-- The results map built in the extractor loop: for i, name in
SubexpNames, when i is nonzero and name nonempty, bind name to matches[i].
Later bindings overwrite earlier ones, as in a Go map. -/
def buildResults (names ms : List String) : List (String × String) :=
  names.enum.foldl (fun acc p =>
    if p.1 ≠ 0 ∧ p.2 ≠ "" then
      match ms.get? p.1 with
      | some m => acc ++ [(p.2, m)]
      | none => acc
    else acc) []

/-- Go map lookup over buildResults: the last binding for a key wins. -/
def lookupResult (results : List (String × String)) (key : String) : Option String :=
  (results.reverse.find? (fun p => p.1 == key)).map (fun p => p.2)

/-- Body of the per-line loop of getFailuresMessageAsAnnotations: a Go
continue becomes none, the appended annotation becomes some. -/
def processLine (r : GoRegex) (errline : String) : Option AnnotationRecord :=
  if ¬ matchString r errline then none
  else
    match r.find errline with
    | none => none
    | some ms =>
      let results := buildResults r.subexpNames ms
      match lookupResult results "filename" with
      | none => none
      | some filename0 =>
        let filename := trimPrefixGo filename0 "./"
        match lookupResult results "line" with
        | none => none
        | some linenumber =>
          match lookupResult results "error" with
          | none => none
          | some errmsg =>
            match goAtoi linenumber with
            | none => none
            | some ilinenumber =>
              some { path := filename, startLine := ilinenumber,
                     endLine := ilinenumber, annotationLevel := "failure",
                     message := errmsg }

/-- getFailuresMessageAsAnnotations: compiled is the result of
regexp.Compile on pacopts.ErrorDetectionSimpleRegexp (none when the pattern
fails to compile), kubeOk models whether NewKubernetesInteraction
succeeded, taskinfos the collaborator-provided failed-task snippets. -/
def getFailuresMessageAsAnnotations (compiled : Option GoRegex) (kubeOk : Bool)
    (taskinfos : List TaskInfo) : List AnnotationRecord :=
  match compiled with
  | none => []
  | some r =>
    if kubeOk then
      taskinfos.foldl (fun annotations taskinfo =>
        (splitOnGo taskinfo.logSnippet "\n").foldl (fun acc errline =>
          match processLine r errline with
          | some a => acc ++ [a]
          | none => acc) annotations) []
    else []

/-- The pipelines-as-code label key under which the check-run id is
persisted on the run object (keys.CheckRunID). -/
def checkRunIDKey : String := "pipelinesascode.tekton.dev/check-run-id"

/-- The tekton PipelineRun as this core consumes it: its labels, and the
three cancellation predicates of the tekton library (IsCancelled,
IsGracefullyCancelled, IsGracefullyStopped), which are external
collaborators modelled as fields. -/
structure PipelineRun where
  labels : List (String × String)
  cancelled : Bool
  gracefullyCancelled : Bool
  gracefullyStopped : Bool
deriving DecidableEq

/-- isPipelineRunCancelledOrStopped from the source. -/
def isPipelineRunCancelledOrStopped (run : Option PipelineRun) : Bool :=
  match run with
  | none => false
  | some r =>
    if r.cancelled || r.gracefullyCancelled || r.gracefullyStopped then true
    else false

/-- provider.StatusOpts, restricted to the fields this core reads. -/
structure StatusOpts where
  pipelineRun : Option PipelineRun
  pipelineRunName : String
  originalPipelineRunName : String
  status : String
  conclusion : String
  text : String
  detailsURL : String
  title : String
  summary : String
deriving DecidableEq

/-- info.PacOpts, restricted to the fields this core reads. -/
structure PacOpts where
  applicationName : String
  errorDetection : Bool
  errorDetectionNumberOfLines : Int
deriving DecidableEq

/-- info.Event, restricted to the fields this core reads. -/
structure Event where
  organization : String
  repository : String
  sha : String
  eventType : String
  pullRequestNumber : Int
  installationID : Int
deriving DecidableEq

/-- getCheckName from the source. -/
def getCheckName (status : StatusOpts) (pacopts : PacOpts) : String :=
  if pacopts.applicationName ≠ "" then
    if status.originalPipelineRunName = "" then pacopts.applicationName
    else pacopts.applicationName ++ " / " ++ status.originalPipelineRunName
  else status.originalPipelineRunName

/-- The Output field of a listed github.CheckRun (Title and Summary are
nullable pointers). -/
structure CheckOutput where
  title : Option String
  summary : Option String
deriving DecidableEq

/-- A github.CheckRun as returned by ListCheckRunsForRef. The source
dereferences ID and ExternalID unconditionally, so they are plain fields;
Output is nil-checked, so it stays optional. -/
structure CheckRun where
  id : Int
  externalID : String
  output : Option CheckOutput
deriving DecidableEq

/-- isSkippedCheckrun from the source. -/
def isSkippedCheckrun (run : Option CheckRun) : Bool :=
  match run with
  | none => false
  | some r =>
    match r.output with
    | none => false
    | some o =>
      match o.title, o.summary with
      | some t, some s =>
        if t = "Skipped" ∧ goContains s "is skipping this commit" then true
        else false
      | _, _ => false

/-- canIUseCheckrunID from the source: st is the current
skippedRun.checkRunID of the provider (0 means the slot is empty); the
result pairs the returned Bool with the new slot value. The source guards
this compare-and-set with an exclusive mutex; the sequential model captures
the serialized effect of the calls. -/
def canIUseCheckrunID (st : Int) (checkrunid : Int) : Bool × Int :=
  if st = 0 then (true, checkrunid) else (false, st)

/-- A sequence of canIUseCheckrunID calls on one provider instance,
starting from slot value st: the list of returned Booleans and the final
slot value. -/
def runClaims (st : Int) : List Int → List Bool × Int
  | [] => ([], st)
  | c :: cs =>
    let r := canIUseCheckrunID st c
    let rest := runClaims r.2 cs
    (r.1 :: rest.1, rest.2)

/-- The loop body of getExistingCheckRunID over the listed check runs,
threading the skip-slot state. -/
def existingLoop (prName : String) (st : Int) : List CheckRun → Option Int × Int
  | [] => (none, st)
  | cr :: rest =>
    if isSkippedCheckrun (some cr) then
      let r := canIUseCheckrunID st cr.id
      if r.1 then (some cr.id, r.2)
      else if cr.externalID = prName then (some cr.id, r.2)
      else existingLoop prName r.2 rest
    else if cr.externalID = prName then (some cr.id, st)
    else existingLoop prName st rest

/-- github.CreateCheckRunOptions as built by createCheckRunStatus. -/
structure CreateCheckRunOptions where
  name : String
  headSHA : String
  status : String
  detailsURL : String
  externalID : String
  startedAt : Nat
deriving DecidableEq

/-- github.CheckRunOutput as built for the update call: Title, Summary and
Text are always set; the annotations pointer is nil unless assigned. -/
structure CheckRunOutput where
  title : String
  summary : String
  text : String
  annotations : Option (List AnnotationRecord)
deriving DecidableEq

/-- github.UpdateCheckRunOptions as built by getOrUpdateCheckRunStatus. -/
structure UpdateCheckRunOptions where
  name : String
  status : String
  output : CheckRunOutput
  externalID : Option String
  detailsURL : Option String
  completedAt : Option Nat
  conclusion : Option String
deriving DecidableEq

/-- The observable calls one check-run-mode reconciliation issues, in
order: hosting-service calls, the run-object patch, and the invocation of
the annotation extractor. -/
inductive Call where
  | listCheckRuns (org repo sha : String) (appID : Int)
  | createCheckRun (opts : CreateCheckRunOptions)
  | patchPipelineRun (checkRunID : Int) (logURL : String)
  | extractAnnotations
  | updateCheckRun (org repo : String) (id : Int) (opts : UpdateCheckRunOptions)
deriving DecidableEq

/-- Environment of one check-run-mode reconciliation: the clock reading,
the collaborator responses, and the inputs of the annotation extractor. -/
structure CheckEnv where
  now : Nat
  listResult : Except Unit (Int × List CheckRun)
  createResult : Except Unit Int
  patchFails : Bool
  updateFails : Bool
  regexCompile : Option GoRegex
  kubeOk : Bool
  taskinfos : List TaskInfo

/-- Result of one check-run-mode reconciliation: its call trace, the final
skip-slot value, and the returned error if any. -/
structure CheckRunTrace where
  calls : List Call
  skipState : Int
  err : Option String

/-- The guard at lines 219-223 of the source: the extractor is invoked
when the run object is present and error detection is enabled. -/
def annotationExtractorInvoked (pacopts : PacOpts) (statusOpts : StatusOpts) : Bool :=
  statusOpts.pipelineRun.isSome && pacopts.errorDetection

/-- The github.UpdateCheckRunOptions built at lines 213-246 of the source.
The single Go conditional that sets CompletedAt and Conclusion together
becomes two conditionals with the same condition. -/
def buildUpdateOpts (env : CheckEnv) (pacopts : PacOpts) (statusOpts : StatusOpts) :
    UpdateCheckRunOptions :=
  let annotations : Option (List AnnotationRecord) :=
    match statusOpts.pipelineRun with
    | some _ =>
      if pacopts.errorDetection then
        some (getFailuresMessageAsAnnotations env.regexCompile env.kubeOk env.taskinfos)
      else none
    | none => none
  let output : CheckRunOutput :=
    { title := statusOpts.title, summary := statusOpts.summary,
      text := statusOpts.text, annotations := annotations }
  let externalID : Option String :=
    if statusOpts.pipelineRunName ≠ "" then some statusOpts.pipelineRunName else none
  let detailsURL : Option String :=
    if statusOpts.detailsURL ≠ "" then some statusOpts.detailsURL else none
  let completedAt : Option Nat :=
    if statusOpts.conclusion ≠ "" ∧ statusOpts.conclusion ≠ "pending"
    then some env.now else none
  let conclusion0 : Option String :=
    if statusOpts.conclusion ≠ "" ∧ statusOpts.conclusion ≠ "pending"
    then some statusOpts.conclusion else none
  let conclusion : Option String :=
    if isPipelineRunCancelledOrStopped statusOpts.pipelineRun
    then some "cancelled" else conclusion0
  { name := getCheckName statusOpts pacopts, status := statusOpts.status,
    output := output, externalID := externalID, detailsURL := detailsURL,
    completedAt := completedAt, conclusion := conclusion }

/-- The tail of getOrUpdateCheckRunStatus after a check-run id has been
resolved: build the output (invoking the extractor when enabled) and issue
the UpdateCheckRun call. -/
def finishUpdate (env : CheckEnv) (runevent : Event) (pacopts : PacOpts)
    (statusOpts : StatusOpts) (st : Int) (prior : List Call) (checkRunID : Int) :
    CheckRunTrace :=
  let extractCalls : List Call :=
    if annotationExtractorInvoked pacopts statusOpts then [Call.extractAnnotations] else []
  { calls := prior ++ extractCalls ++
      [Call.updateCheckRun runevent.organization runevent.repository checkRunID
        (buildUpdateOpts env pacopts statusOpts)],
    skipState := st,
    err := if env.updateFails then some "update error" else none }

/-- The patch step of getOrUpdateCheckRunStatus taken on the discovery
path (label absent): patch the run object when present, then update. -/
def afterDiscovery (env : CheckEnv) (runevent : Event) (pacopts : PacOpts)
    (statusOpts : StatusOpts) (prior : List Call) (st : Int) (checkRunID : Int) :
    CheckRunTrace :=
  match statusOpts.pipelineRun with
  | none => finishUpdate env runevent pacopts statusOpts st prior checkRunID
  | some _ =>
    let pcall := Call.patchPipelineRun checkRunID statusOpts.detailsURL
    if env.patchFails then
      { calls := prior ++ [pcall], skipState := st, err := some "patch error" }
    else finishUpdate env runevent pacopts statusOpts st (prior ++ [pcall]) checkRunID

/-- getExistingCheckRunID as observed at its call site: the returned id
(the error being discarded there) and the resulting skip-slot value. -/
def discoveryResult (env : CheckEnv) (prName : String) (st : Int) : Option Int × Int :=
  match env.listResult with
  | .error _ => (none, st)
  | .ok (total, runs) =>
    if total = 0 then (none, st) else existingLoop prName st runs

/-- The persisted-label fast-path lookup at lines 188-198 of the source. -/
def labelValue (statusOpts : StatusOpts) : Option String :=
  match statusOpts.pipelineRun with
  | some pr => lookupLabel pr.labels checkRunIDKey
  | none => none

/-- getOrUpdateCheckRunStatus from the source, as a trace-producing
function: applicationID is v.ApplicationID, st the incoming skip-slot
value. The ListCheckRunsForRef error is discarded at the call site in the
source (checkRunID, _ = ...), so a list error falls through to creation. -/
def getOrUpdateCheckRunStatus (applicationID : Int) (env : CheckEnv)
    (runevent : Event) (pacopts : PacOpts) (statusOpts : StatusOpts) (st : Int) :
    CheckRunTrace :=
  match labelValue statusOpts with
  | some id =>
    match goAtoi id with
    | none => { calls := [], skipState := st, err := some "api error: cannot convert checkrunid" }
    | some checkID => finishUpdate env runevent pacopts statusOpts st [] checkID
  | none =>
    let listCall := Call.listCheckRuns runevent.organization runevent.repository
      runevent.sha applicationID
    let disc := discoveryResult env statusOpts.pipelineRunName st
    match disc.1 with
    | some cid => afterDiscovery env runevent pacopts statusOpts [listCall] disc.2 cid
    | none =>
      let createCall := Call.createCheckRun
        { name := getCheckName statusOpts pacopts, headSHA := runevent.sha,
          status := "in_progress", detailsURL := statusOpts.detailsURL,
          externalID := statusOpts.pipelineRunName, startedAt := env.now }
      match env.createResult with
      | .error _ =>
        { calls := [listCall, createCall], skipState := disc.2, err := some "create error" }
      | .ok newID =>
        afterDiscovery env runevent pacopts statusOpts [listCall, createCall] disc.2 newID

/-- Selects the payload of an UpdateCheckRun call. -/
def pickUpdate : Call → Option UpdateCheckRunOptions
  | Call.updateCheckRun _ _ _ o => some o
  | _ => none

/-- The update-call payloads occurring in a trace. -/
def updateOptsIn (t : CheckRunTrace) : List UpdateCheckRunOptions :=
  t.calls.filterMap pickUpdate

/-- github.RepoStatus as built by createStatusCommit. -/
structure RepoStatus where
  state : String
  targetURL : String
  description : String
  context : String
deriving DecidableEq

/-- The observable calls of one commit-status-mode reconciliation. -/
inductive CommitCall where
  | createStatus (org repo sha : String) (st : RepoStatus)
  | createComment (org repo : String) (prNumber : Int) (body : String)
deriving DecidableEq

/-- Collaborator failure switches for commit-status mode. -/
structure CommitEnv where
  createStatusFails : Bool
  createCommentFails : Bool
deriving DecidableEq

/-- The outcome coercions of createStatusCommit (lines 280-286): skipped
and neutral become success, then in_progress forces pending. -/
def coercedCommitStatus (status0 : StatusOpts) : StatusOpts :=
  let status1 :=
    if status0.conclusion = "skipped" ∨ status0.conclusion = "neutral"
    then { status0 with conclusion := "success" } else status0
  if status1.status = "in_progress" then { status1 with conclusion := "pending" }
  else status1

/-- The github.RepoStatus submitted by createStatusCommit. -/
def commitGhStatus (pacopts : PacOpts) (status0 : StatusOpts) : RepoStatus :=
  let status := coercedCommitStatus status0
  { state := status.conclusion, targetURL := status.detailsURL,
    description := status.title, context := getCheckName status pacopts }

/-- createStatusCommit from the source, as a trace-producing function. -/
def createStatusCommit (cenv : CommitEnv) (runevent : Event) (pacopts : PacOpts)
    (status0 : StatusOpts) : List CommitCall × Option String :=
  let status := coercedCommitStatus status0
  let c1 := CommitCall.createStatus runevent.organization runevent.repository
    runevent.sha (commitGhStatus pacopts status0)
  if cenv.createStatusFails then ([c1], some "create status error")
  else if status.status = "completed" ∧ status.text ≠ "" ∧ runevent.eventType = "pull_request" then
    let c2 := CommitCall.createComment runevent.organization runevent.repository
      runevent.pullRequestNumber (status.summary ++ "<br>" ++ status.text)
    ([c1, c2], if cenv.createCommentFails then some "comment error" else none)
  else ([c1], none)

/-- The title/summary mapping at the head of CreateStatus (lines 320-344):
the outcome switch, the in_progress override, and the application-name
prefix on the summary. -/
def createStatusMapped (pacopts : PacOpts) (statusOpts : StatusOpts) : StatusOpts :=
  let title1 :=
    if statusOpts.conclusion = "success" then "Success"
    else if statusOpts.conclusion = "failure" then "Failed"
    else if statusOpts.conclusion = "skipped" then "Skipped"
    else if statusOpts.conclusion = "neutral" then "Unknown"
    else statusOpts.title
  let summary1 :=
    if statusOpts.conclusion = "success" then "has <b>successfully</b> validated your commit."
    else if statusOpts.conclusion = "failure" then "has <b>failed</b>."
    else if statusOpts.conclusion = "skipped" then "is skipping this commit."
    else if statusOpts.conclusion = "neutral" then "doesn\x27t know what happened with this commit."
    else statusOpts.summary
  let title2 := if statusOpts.status = "in_progress" then "CI has Started" else title1
  let summary2 := if statusOpts.status = "in_progress" then "is running." else summary1
  let onPr :=
    if statusOpts.originalPipelineRunName ≠ ""
    then "/" ++ statusOpts.originalPipelineRunName else ""
  { statusOpts with
    title := title2
    summary := pacopts.applicationName ++ onPr ++ " " ++ summary2 }

/-- Result of one CreateStatus call. -/
inductive ReportOutcome where
  | noClient (err : String)
  | checkRun (t : CheckRunTrace)
  | commitStatus (calls : List CommitCall) (err : Option String)

/-- CreateStatus from the source: configuration check, mapping, then mode
dispatch on installationID. clientSet models v.Client being non-nil. -/
def CreateStatus (clientSet : Bool) (applicationID : Int) (env : CheckEnv)
    (cenv : CommitEnv) (runevent : Event) (pacopts : PacOpts)
    (statusOpts : StatusOpts) (st : Int) : ReportOutcome :=
  if ¬ clientSet then .noClient "cannot set status on github no token or url set"
  else
    let s := createStatusMapped pacopts statusOpts
    if runevent.installationID > 0 then
      .checkRun (getOrUpdateCheckRunStatus applicationID env runevent pacopts s st)
    else
      let r := createStatusCommit cenv runevent pacopts s
      .commitStatus r.1 r.2

/-! Concrete regex instances used to exercise the extractor on the
examples of the specification. -/

/-- A concrete instance of the compiled pattern
(?P filename)([^:]+):(?P line)([0-9]+): (?P error)(.*) — a filename, a
colon, a line number, a colon-space, and the message. -/
def sampleRegex : GoRegex where
  subexpNames := ["", "filename", "line", "error"]
  find := fun s =>
    match splitOnGo s ": " with
    | [] => none
    | first :: rest =>
      if rest = [] then none
      else
        match splitOnGo first ":" with
        | [f, l] =>
          if f ≠ "" ∧ l ≠ "" ∧ l.data.all Char.isDigit
          then some [s, f, l, String.intercalate ": " rest]
          else none
        | _ => none

/-- A compiled pattern that never matches. -/
def noMatchRegex : GoRegex where
  subexpNames := [""]
  find := fun _ => none

/-- A compiled pattern with no filename group: it always matches, but its
only named group is not one of the three the extractor expects. -/
def noFilenameRegex : GoRegex where
  subexpNames := ["", "memo"]
  find := fun s => some [s, "x"]

/-- A compiled pattern whose line group captures a non-numeric value. -/
def lineNotIntRegex : GoRegex where
  subexpNames := ["", "filename", "line", "error"]
  find := fun s => some [s, "f.go", "N/A", "msg"]

/-! Shared helper lemmas. -/

theorem foldl_append_filterMap (r : GoRegex) (lines : List String)
    (acc : List AnnotationRecord) :
    lines.foldl (fun a errline =>
      match processLine r errline with
      | some x => a ++ [x]
      | none => a) acc = acc ++ lines.filterMap (processLine r) := by
  induction lines generalizing acc with
  | nil => simp
  | cons l ls ih =>
    cases h : processLine r l with
    | none => simp [List.foldl_cons, List.filterMap_cons, h, ih]
    | some x => simp [List.foldl_cons, List.filterMap_cons, h, ih]

theorem getFailures_eq_flatMap (r : GoRegex) (tis : List TaskInfo) :
    getFailuresMessageAsAnnotations (some r) true tis =
      tis.flatMap (fun ti => (splitOnGo ti.logSnippet "\n").filterMap (processLine r)) := by
  have key : ∀ (ts : List TaskInfo) (acc : List AnnotationRecord),
      ts.foldl (fun annotations taskinfo =>
        (splitOnGo taskinfo.logSnippet "\n").foldl (fun acc errline =>
          match processLine r errline with
          | some a => acc ++ [a]
          | none => acc) annotations) acc =
      acc ++ ts.flatMap (fun ti => (splitOnGo ti.logSnippet "\n").filterMap (processLine r)) := by
    intro ts
    induction ts with
    | nil => simp
    | cons t ts ih =>
      intro acc
      simp only [List.foldl_cons]
      rw [foldl_append_filterMap, ih, List.flatMap_cons, List.append_assoc]
  simpa [getFailuresMessageAsAnnotations] using key tis []

/-! Claim theorems for the annotation extractor. -/

/-- C7: the extractor never raises: a pattern that failed to compile
yields the empty annotation list; the result is the per-line filterMap of
the log lines, so a skipped line contributes nothing while all other lines
are still processed; and a line is skipped (processLine returns none) when
it does not match, when the matched pattern lacks a filename, line or
error named group, or when the line group does not parse as an integer. -/
theorem extractor_error_recovery :
    (∀ (kubeOk : Bool) (tis : List TaskInfo),
      getFailuresMessageAsAnnotations none kubeOk tis = []) ∧
    (∀ (r : GoRegex) (tis : List TaskInfo),
      getFailuresMessageAsAnnotations (some r) true tis =
        tis.flatMap (fun ti => (splitOnGo ti.logSnippet "\n").filterMap (processLine r))) ∧
    (∀ (r : GoRegex) (line : String),
      matchString r line = false → processLine r line = none) ∧
    (∀ (r : GoRegex) (line : String) (ms : List String),
      r.find line = some ms →
      lookupResult (buildResults r.subexpNames ms) "filename" = none →
      processLine r line = none) ∧
    (∀ (r : GoRegex) (line : String) (ms : List String),
      r.find line = some ms →
      lookupResult (buildResults r.subexpNames ms) "line" = none →
      processLine r line = none) ∧
    (∀ (r : GoRegex) (line : String) (ms : List String),
      r.find line = some ms →
      lookupResult (buildResults r.subexpNames ms) "error" = none →
      processLine r line = none) ∧
    (∀ (r : GoRegex) (line : String) (ms : List String) (ln : String),
      r.find line = some ms →
      lookupResult (buildResults r.subexpNames ms) "line" = some ln →
      goAtoi ln = none →
      processLine r line = none) := by
  refine ⟨fun _ _ => rfl, getFailures_eq_flatMap, ?_, ?_, ?_, ?_, ?_⟩
  · intro r line h
    simp [processLine, h]
  · intro r line ms h1 h2
    simp [processLine, matchString, h1, h2]
  · intro r line ms h1 h2
    cases hf : lookupResult (buildResults r.subexpNames ms) "filename" with
    | none => simp [processLine, matchString, h1, hf]
    | some f => simp [processLine, matchString, h1, hf, h2]
  · intro r line ms h1 h2
    cases hf : lookupResult (buildResults r.subexpNames ms) "filename" with
    | none => simp [processLine, matchString, h1, hf]
    | some f =>
      cases hl : lookupResult (buildResults r.subexpNames ms) "line" with
      | none => simp [processLine, matchString, h1, hf, hl]
      | some l => simp [processLine, matchString, h1, hf, hl, h2]
  · intro r line ms ln h1 h2 h3
    cases hf : lookupResult (buildResults r.subexpNames ms) "filename" with
    | none => simp [processLine, matchString, h1, hf]
    | some f =>
      cases he : lookupResult (buildResults r.subexpNames ms) "error" with
      | none => simp [processLine, matchString, h1, hf, h2, he]
      | some e => simp [processLine, matchString, h1, hf, h2, he, h3]

/-- Witness for C7 at concrete inputs: a failed compile yields [], a
non-matching line is skipped, a match lacking the filename group is
skipped, a non-integer line value is skipped, and a snippet mixing a bad
line with a good one still yields the record of the good line. -/
theorem extractor_error_recovery_witness :
    getFailuresMessageAsAnnotations none true [⟨"main.go:42: boom"⟩] = [] ∧
    processLine noMatchRegex "main.go:42: boom" = none ∧
    processLine noFilenameRegex "main.go:42: boom" = none ∧
    processLine lineNotIntRegex "f.go:NA: boom" = none ∧
    getFailuresMessageAsAnnotations (some sampleRegex) true [⟨"garbage\nmain.go:42: boom"⟩] =
      [⟨"main.go", 42, 42, "failure", "boom"⟩] := by
  refine ⟨extractor_error_recovery.1 true _, ?_, ?_, ?_, ?_⟩
  · exact extractor_error_recovery.2.2.1 _ _ (by decide)
  · exact extractor_error_recovery.2.2.2.1 _ _ ["main.go:42: boom", "x"] (by decide) (by decide)
  · exact extractor_error_recovery.2.2.2.2.2.2 _ _ ["f.go:NA: boom", "f.go", "N/A", "msg"]
      "N/A" (by decide) (by decide) (by decide)
  · exact (extractor_error_recovery.2.1 sampleRegex _).trans (by decide)

/-- C8: a line matching with all three named groups and an integer line
value yields exactly one record: path is the filename with a leading ./
stripped, start and end line both equal the parsed number, the level is
failure and the message is the error group; on the concrete log line
"main.go:42: syntax error near x" the extractor returns exactly that one
record, and a ./pkg/foo.go filename comes out as pkg/foo.go. -/
theorem extractor_success_path :
    (∀ (r : GoRegex) (line : String) (ms : List String) (f l e : String) (n : Int),
      r.find line = some ms →
      lookupResult (buildResults r.subexpNames ms) "filename" = some f →
      lookupResult (buildResults r.subexpNames ms) "line" = some l →
      lookupResult (buildResults r.subexpNames ms) "error" = some e →
      goAtoi l = some n →
      processLine r line = some
        { path := trimPrefixGo f "./", startLine := n, endLine := n,
          annotationLevel := "failure", message := e }) ∧
    getFailuresMessageAsAnnotations (some sampleRegex) true
        [⟨"main.go:42: syntax error near \x27x\x27"⟩] =
      [⟨"main.go", 42, 42, "failure", "syntax error near \x27x\x27"⟩] ∧
    processLine sampleRegex "./pkg/foo.go:7: boom" =
      some ⟨"pkg/foo.go", 7, 7, "failure", "boom"⟩ := by
  refine ⟨?_, by decide, by decide⟩
  intro r line ms f l e n h1 h2 h3 h4 h5
  simp [processLine, matchString, h1, h2, h3, h4, h5]

/-! Shape of the check-run-mode trace: whatever branch is taken, the
calls are a prefix of discovery/create/patch calls, possibly followed by
the extractor invocation and exactly one update call whose payload is
buildUpdateOpts. -/

theorem calls_shape (aid : Int) (env : CheckEnv) (re : Event) (po : PacOpts)
    (so : StatusOpts) (st : Int) :
    ∃ prior : List Call,
      (∀ c ∈ prior, pickUpdate c = none ∧ c ≠ Call.extractAnnotations) ∧
      ((getOrUpdateCheckRunStatus aid env re po so st).calls = prior ∨
       ∃ cid, (getOrUpdateCheckRunStatus aid env re po so st).calls =
         prior ++
           (if annotationExtractorInvoked po so then [Call.extractAnnotations] else []) ++
           [Call.updateCheckRun re.organization re.repository cid
             (buildUpdateOpts env po so)]) := by
  cases hl : labelValue so with
  | some id =>
    cases ha : goAtoi id with
    | none =>
      refine ⟨[], by simp, Or.inl ?_⟩
      simp [getOrUpdateCheckRunStatus, hl, ha]
    | some cid =>
      refine ⟨[], by simp, Or.inr ⟨cid, ?_⟩⟩
      simp [getOrUpdateCheckRunStatus, hl, ha, finishUpdate]
  | none =>
    rcases hd : discoveryResult env so.pipelineRunName st with ⟨od, st2⟩
    cases od with
    | some cid =>
      cases hp : so.pipelineRun with
      | none =>
        refine ⟨[Call.listCheckRuns re.organization re.repository re.sha aid],
          by simp [pickUpdate], Or.inr ⟨cid, ?_⟩⟩
        simp [getOrUpdateCheckRunStatus, hl, hd, afterDiscovery, hp, finishUpdate]
      | some pr =>
        cases hpf : env.patchFails with
        | true =>
          refine ⟨[Call.listCheckRuns re.organization re.repository re.sha aid,
            Call.patchPipelineRun cid so.detailsURL], by simp [pickUpdate], Or.inl ?_⟩
          simp [getOrUpdateCheckRunStatus, hl, hd, afterDiscovery, hp, hpf]
        | false =>
          refine ⟨[Call.listCheckRuns re.organization re.repository re.sha aid,
            Call.patchPipelineRun cid so.detailsURL], by simp [pickUpdate],
            Or.inr ⟨cid, ?_⟩⟩
          simp [getOrUpdateCheckRunStatus, hl, hd, afterDiscovery, hp, hpf, finishUpdate]
    | none =>
      cases hc : env.createResult with
      | error e =>
        refine ⟨[Call.listCheckRuns re.organization re.repository re.sha aid,
          Call.createCheckRun
            { name := getCheckName so po, headSHA := re.sha, status := "in_progress",
              detailsURL := so.detailsURL, externalID := so.pipelineRunName,
              startedAt := env.now }], by simp [pickUpdate], Or.inl ?_⟩
        simp [getOrUpdateCheckRunStatus, hl, hd, hc]
      | ok newID =>
        cases hp : so.pipelineRun with
        | none =>
          refine ⟨[Call.listCheckRuns re.organization re.repository re.sha aid,
            Call.createCheckRun
              { name := getCheckName so po, headSHA := re.sha, status := "in_progress",
                detailsURL := so.detailsURL, externalID := so.pipelineRunName,
                startedAt := env.now }], by simp [pickUpdate], Or.inr ⟨newID, ?_⟩⟩
          simp [getOrUpdateCheckRunStatus, hl, hd, hc, afterDiscovery, hp, finishUpdate]
        | some pr =>
          cases hpf : env.patchFails with
          | true =>
            refine ⟨[Call.listCheckRuns re.organization re.repository re.sha aid,
              Call.createCheckRun
                { name := getCheckName so po, headSHA := re.sha, status := "in_progress",
                  detailsURL := so.detailsURL, externalID := so.pipelineRunName,
                  startedAt := env.now },
              Call.patchPipelineRun newID so.detailsURL], by simp [pickUpdate], Or.inl ?_⟩
            simp [getOrUpdateCheckRunStatus, hl, hd, hc, afterDiscovery, hp, hpf]
          | false =>
            refine ⟨[Call.listCheckRuns re.organization re.repository re.sha aid,
              Call.createCheckRun
                { name := getCheckName so po, headSHA := re.sha, status := "in_progress",
                  detailsURL := so.detailsURL, externalID := so.pipelineRunName,
                  startedAt := env.now },
              Call.patchPipelineRun newID so.detailsURL], by simp [pickUpdate],
              Or.inr ⟨newID, ?_⟩⟩
            simp [getOrUpdateCheckRunStatus, hl, hd, hc, afterDiscovery, hp, hpf,
              finishUpdate]

/-- Every update payload occurring in a check-run-mode trace equals
buildUpdateOpts for that reconciliation, and there is at most one. -/
theorem updateOptsIn_cases (aid : Int) (env : CheckEnv) (re : Event) (po : PacOpts)
    (so : StatusOpts) (st : Int) :
    updateOptsIn (getOrUpdateCheckRunStatus aid env re po so st) = [] ∨
    updateOptsIn (getOrUpdateCheckRunStatus aid env re po so st) =
      [buildUpdateOpts env po so] := by
  obtain ⟨prior, hp, h⟩ := calls_shape aid env re po so st
  have hnil : prior.filterMap pickUpdate = [] :=
    List.filterMap_eq_nil_iff.mpr (fun c hc => (hp c hc).1)
  rcases h with h | ⟨cid, h⟩
  · left
    simp [updateOptsIn, h, hnil]
  · right
    simp only [updateOptsIn, h, List.filterMap_append, hnil]
    cases hb : annotationExtractorInvoked po so <;> simp [pickUpdate]

/-- Witness for C8: the universal conjunct applied to the sample pattern
on the concrete round-trip line of the specification. -/
theorem extractor_success_path_witness :
    processLine sampleRegex "main.go:42: syntax error near \x27x\x27" =
      some ⟨"main.go", 42, 42, "failure", "syntax error near \x27x\x27"⟩ := by
  have h := extractor_success_path.1 sampleRegex "main.go:42: syntax error near \x27x\x27"
    ["main.go:42: syntax error near \x27x\x27", "main.go", "42", "syntax error near \x27x\x27"]
    "main.go" "42" "syntax error near \x27x\x27" 42
    (by decide) (by decide) (by decide) (by decide) (by decide)
  exact h.trans (by decide)

/-! Concrete reconciliation inputs used by witnesses and counterexamples. -/

/-- A run object carrying a persisted check-run id in its labels. -/
def prLabeled : PipelineRun := ⟨[(checkRunIDKey, "314")], false, false, false⟩

/-- The same run object, cancelled. -/
def prCancelled : PipelineRun := ⟨[(checkRunIDKey, "314")], true, false, false⟩

/-- An environment with no compiled pattern and no failed-task snippets. -/
def envNoRegex : CheckEnv :=
  { now := 100, listResult := .ok (0, []), createResult := .ok 9,
    patchFails := false, updateFails := false, regexCompile := none,
    kubeOk := true, taskinfos := [] }

/-- A sample triggering event with an installation id. -/
def evSample : Event := ⟨"org", "repo", "sha", "pull_request", 1, 123⟩

/-- Options with error detection enabled. -/
def poDetect : PacOpts := ⟨"Pipelines as Code", true, 3⟩

/-- Options with error detection disabled. -/
def poNoDetect : PacOpts := ⟨"Pipelines as Code", false, 3⟩

/-- A completed, successful status request whose run object carries the
persisted check-run id. -/
def soSuccess : StatusOpts :=
  { pipelineRun := some prLabeled, pipelineRunName := "prname",
    originalPipelineRunName := "", status := "completed",
    conclusion := "success", text := "", detailsURL := "url",
    title := "t", summary := "s" }

/-- The same request still in progress (phase not completed). -/
def soInProgress : StatusOpts := { soSuccess with status := "in_progress" }

/-- The same request on a cancelled run object. -/
def soCancelled : StatusOpts := { soSuccess with pipelineRun := some prCancelled }

/-- C1 (amended): the extractor is invoked only when the run object is
present and error detection is enabled — the requested outcome is not
consulted — and without those two conditions no annotations are attached
to the update payload. -/
theorem extractor_invocation_gating :
    (∀ (aid : Int) (env : CheckEnv) (re : Event) (po : PacOpts) (so : StatusOpts) (st : Int),
      Call.extractAnnotations ∈ (getOrUpdateCheckRunStatus aid env re po so st).calls →
      so.pipelineRun.isSome = true ∧ po.errorDetection = true) ∧
    (∀ (env : CheckEnv) (po : PacOpts) (so : StatusOpts),
      po.errorDetection = false ∨ so.pipelineRun = none →
      (buildUpdateOpts env po so).output.annotations = none) := by
  constructor
  · intro aid env re po so st h
    obtain ⟨prior, hp, hcase⟩ := calls_shape aid env re po so st
    rcases hcase with hc | ⟨cid, hc⟩
    · rw [hc] at h
      exact absurd rfl (hp _ h).2
    · rw [hc] at h
      simp only [List.append_assoc, List.mem_append, List.mem_singleton] at h
      rcases h with h | h | h
      · exact absurd rfl (hp _ h).2
      · cases hb : annotationExtractorInvoked po so with
        | false => simp [hb] at h
        | true =>
          simp only [annotationExtractorInvoked, Bool.and_eq_true] at hb
          exact hb
      · simp at h
  · intro env po so h
    rcases h with h | h
    · cases hpr : so.pipelineRun <;> simp [buildUpdateOpts, h, hpr]
    · simp [buildUpdateOpts, h]

/-- C1 counterexample: with diagnostics enabled, a reconciliation whose
requested outcome is "success" still invokes the annotation extractor, so
the invocation is not restricted to failure outcomes. -/
theorem extractor_invoked_on_success_outcome :
    soSuccess.conclusion = "success" ∧
    Call.extractAnnotations ∈
      (getOrUpdateCheckRunStatus 0 envNoRegex evSample poDetect soSuccess 0).calls :=
  ⟨rfl, by decide⟩

/-- Witness for C1 (amended) at concrete inputs. -/
theorem extractor_invocation_gating_witness :
    (soSuccess.pipelineRun.isSome = true ∧ poDetect.errorDetection = true) ∧
    (buildUpdateOpts envNoRegex poNoDetect soSuccess).output.annotations = none :=
  ⟨extractor_invocation_gating.1 0 envNoRegex evSample poDetect soSuccess 0 (by decide),
   extractor_invocation_gating.2 envNoRegex poNoDetect soSuccess (Or.inl rfl)⟩

/-- C3 (amended): absent the cancellation override, the submitted update
carries a completion timestamp and a conclusion equal to the requested
outcome exactly when the outcome string is neither empty nor "pending";
the phase field is not consulted by this condition. -/
theorem completed_fields_iff_conclusion (aid : Int) (env : CheckEnv) (re : Event)
    (po : PacOpts) (so : StatusOpts) (st : Int) (opts : UpdateCheckRunOptions)
    (hm : opts ∈ updateOptsIn (getOrUpdateCheckRunStatus aid env re po so st))
    (hnc : isPipelineRunCancelledOrStopped so.pipelineRun = false) :
    ((so.conclusion ≠ "" ∧ so.conclusion ≠ "pending") →
      opts.completedAt = some env.now ∧ opts.conclusion = some so.conclusion) ∧
    ((so.conclusion = "" ∨ so.conclusion = "pending") →
      opts.completedAt = none ∧ opts.conclusion = none) := by
  rcases updateOptsIn_cases aid env re po so st with h | h
  · rw [h] at hm
    simp at hm
  · rw [h] at hm
    simp only [List.mem_singleton] at hm
    subst hm
    constructor
    · intro hcc
      constructor <;> simp [buildUpdateOpts, hnc, hcc.1, hcc.2]
    · intro hd
      rcases hd with hd | hd <;>
        exact ⟨by simp [buildUpdateOpts, hnc, hd], by simp [buildUpdateOpts, hnc, hd]⟩

/-- C3 counterexample: a reconciliation whose phase is "in_progress" but
whose outcome is "success" still gets a completion timestamp and a
conclusion on its submitted update, so the condition is not "phase is
completed". -/
theorem completed_set_during_in_progress :
    soInProgress.status = "in_progress" ∧
    isPipelineRunCancelledOrStopped soInProgress.pipelineRun = false ∧
    updateOptsIn (getOrUpdateCheckRunStatus 0 envNoRegex evSample poNoDetect soInProgress 0) =
      [buildUpdateOpts envNoRegex poNoDetect soInProgress] ∧
    (buildUpdateOpts envNoRegex poNoDetect soInProgress).completedAt = some 100 ∧
    (buildUpdateOpts envNoRegex poNoDetect soInProgress).conclusion = some "success" :=
  ⟨rfl, by decide, by decide, by decide, by decide⟩

/-- Witness for C3 (amended) at concrete inputs. -/
theorem completed_fields_iff_conclusion_witness :
    (buildUpdateOpts envNoRegex poNoDetect soSuccess).completedAt = some 100 ∧
    (buildUpdateOpts envNoRegex poNoDetect soSuccess).conclusion = some "success" := by
  have h := completed_fields_iff_conclusion 0 envNoRegex evSample poNoDetect soSuccess 0
    (buildUpdateOpts envNoRegex poNoDetect soSuccess) (by decide) (by decide)
  exact h.1 (by decide)

/-- C4: when the cancellation predicate reports the run as cancelled,
gracefully cancelled or gracefully stopped, every update submitted by the
reconciliation carries conclusion "cancelled", whatever the requested
outcome was. -/
theorem cancellation_overrides_conclusion (aid : Int) (env : CheckEnv) (re : Event)
    (po : PacOpts) (so : StatusOpts) (st : Int) (opts : UpdateCheckRunOptions)
    (hc : isPipelineRunCancelledOrStopped so.pipelineRun = true)
    (hm : opts ∈ updateOptsIn (getOrUpdateCheckRunStatus aid env re po so st)) :
    opts.conclusion = some "cancelled" := by
  rcases updateOptsIn_cases aid env re po so st with h | h
  · rw [h] at hm
    simp at hm
  · rw [h] at hm
    simp only [List.mem_singleton] at hm
    subst hm
    simp [buildUpdateOpts, hc]

/-- Witness for C4: a cancelled run whose requested outcome is "success"
still submits conclusion "cancelled". -/
theorem cancellation_overrides_conclusion_witness :
    (buildUpdateOpts envNoRegex poNoDetect soCancelled).conclusion = some "cancelled" ∧
    soCancelled.conclusion = "success" :=
  ⟨cancellation_overrides_conclusion 0 envNoRegex evSample poNoDetect soCancelled 0 _
    (by decide) (by decide), rfl⟩

/-- C9: when the run object carries a persisted check-run id that parses
as an integer, the reconciliation issues no discovery, create or patch
call — only the (possible) extractor invocation followed by exactly one
update call using that id. -/
theorem persisted_id_fast_path (aid : Int) (env : CheckEnv) (re : Event)
    (po : PacOpts) (so : StatusOpts) (st : Int) (pr : PipelineRun) (v : String) (n : Int)
    (h1 : so.pipelineRun = some pr)
    (h2 : lookupLabel pr.labels checkRunIDKey = some v)
    (h3 : goAtoi v = some n) :
    (getOrUpdateCheckRunStatus aid env re po so st).calls =
      (if annotationExtractorInvoked po so then [Call.extractAnnotations] else []) ++
      [Call.updateCheckRun re.organization re.repository n (buildUpdateOpts env po so)] := by
  have hlv : labelValue so = some v := by simp [labelValue, h1, h2]
  simp [getOrUpdateCheckRunStatus, hlv, h3, finishUpdate]

/-- Witness for C9 at concrete inputs: the trace is exactly one update
call with the persisted id 314. -/
theorem persisted_id_fast_path_witness :
    (getOrUpdateCheckRunStatus 0 envNoRegex evSample poNoDetect soSuccess 0).calls =
      [Call.updateCheckRun "org" "repo" 314 (buildUpdateOpts envNoRegex poNoDetect soSuccess)] := by
  have h := persisted_id_fast_path 0 envNoRegex evSample poNoDetect soSuccess 0 prLabeled
    "314" 314 rfl (by decide) (by decide)
  exact h.trans (by decide)

/-! Registry (skip-slot) claims. -/

/-- Once the slot is occupied, every further call returns false and leaves
the slot unchanged. -/
theorem runClaims_occupied (st : Int) (h : st ≠ 0) (cs : List Int) :
    runClaims st cs = (List.replicate cs.length false, st) := by
  induction cs with
  | nil => rfl
  | cons c cs ih => simp [runClaims, canIUseCheckrunID, h, ih, List.replicate_succ]

/-- C2 (amended): a claim on the empty slot succeeds and records its
candidate, a claim on an occupied slot fails and changes nothing, and for
any call sequence starting from the empty slot whose first candidate is a
nonzero id (GitHub check-run ids are nonzero), only the first call
succeeds and the recorded id stays equal to that first candidate. -/
theorem tryClaimSkipSlot_first_writer :
    (∀ c : Int, canIUseCheckrunID 0 c = (true, c)) ∧
    (∀ st c : Int, st ≠ 0 → canIUseCheckrunID st c = (false, st)) ∧
    (∀ (c : Int) (cs : List Int), c ≠ 0 →
      runClaims 0 (c :: cs) = (true :: List.replicate cs.length false, c)) := by
  refine ⟨fun c => rfl, fun st c h => by simp [canIUseCheckrunID, h], fun c cs hc => ?_⟩
  simp [runClaims, canIUseCheckrunID, runClaims_occupied c hc cs]

/-- C2 counterexample: a first claim with candidate id 0 succeeds but
leaves the slot value 0, so a second claim also succeeds and the recorded
id ends up 5, different from the first winning candidate 0 — first-writer
persistence fails for a zero candidate. -/
theorem skip_slot_zero_candidate_counterexample :
    runClaims 0 [0, 5] = ([true, true], 5) ∧ (5 : Int) ≠ 0 := by decide

/-- Witness for C2 (amended) at concrete inputs, including a repeated
claim with the already-recorded candidate. -/
theorem tryClaimSkipSlot_first_writer_witness :
    canIUseCheckrunID 0 7 = (true, 7) ∧
    canIUseCheckrunID 7 9 = (false, 7) ∧
    runClaims 0 [7, 7, 9] = ([true, false, false], 7) := by
  refine ⟨tryClaimSkipSlot_first_writer.1 7,
    tryClaimSkipSlot_first_writer.2.1 7 9 (by decide), ?_⟩
  have h := tryClaimSkipSlot_first_writer.2.2 7 [7, 9] (by decide)
  simpa using h

/-- C10: occupancy is represented by a nonzero stored id — a call returns
true iff the stored id is 0, on success the stored id becomes the
candidate, a repeated claim of the recorded nonzero id returns false, and
a successful claim with candidate 0 leaves the slot claimable again. -/
theorem canIUse_zero_sentinel :
    (∀ st c : Int, ((canIUseCheckrunID st c).1 = true ↔ st = 0)) ∧
    (∀ st c : Int, st = 0 → canIUseCheckrunID st c = (true, c)) ∧
    (∀ st c : Int, st ≠ 0 → canIUseCheckrunID st c = (false, st)) ∧
    (∀ c : Int, c ≠ 0 → (canIUseCheckrunID ((canIUseCheckrunID 0 c).2) c).1 = false) ∧
    (canIUseCheckrunID 0 0 = (true, 0) ∧
      ∀ c : Int, (canIUseCheckrunID (canIUseCheckrunID 0 0).2 c).1 = true) := by
  refine ⟨fun st c => ?_, fun st c h => by simp [canIUseCheckrunID, h],
    fun st c h => by simp [canIUseCheckrunID, h],
    fun c hc => by simp [canIUseCheckrunID, hc],
    ⟨rfl, fun c => by simp [canIUseCheckrunID]⟩⟩
  by_cases h : st = 0 <;> simp [canIUseCheckrunID, h]

/-- Witness for C10 at concrete inputs. -/
theorem canIUse_zero_sentinel_witness :
    ((canIUseCheckrunID 3 5).1 = true ↔ (3 : Int) = 0) ∧
    canIUseCheckrunID 0 5 = (true, 5) ∧
    canIUseCheckrunID 5 5 = (false, 5) ∧
    (canIUseCheckrunID ((canIUseCheckrunID 0 5).2) 5).1 = false ∧
    (canIUseCheckrunID (canIUseCheckrunID 0 0).2 6).1 = true :=
  ⟨canIUse_zero_sentinel.1 3 5, canIUse_zero_sentinel.2.1 0 5 rfl,
   canIUse_zero_sentinel.2.2.1 5 5 (by decide),
   canIUse_zero_sentinel.2.2.2.1 5 (by decide),
   canIUse_zero_sentinel.2.2.2.2.2 6⟩

/-! Mapper and commit-status claims. -/

/-- C5 (amended): with pre the application-name prefix (followed by
/original-run-name when present, then a space), the mapped title/summary
follow the fixed table — where the success and failure summaries carry the
HTML bold markup of the source, "has <b>successfully</b> validated your
commit." and "has <b>failed</b>." — and phase in_progress overrides them
to "CI has Started" / "is running." regardless of outcome. -/
theorem createStatusMapped_table (po : PacOpts) (so : StatusOpts) (pre : String)
    (hpre : pre = po.applicationName ++
      (if so.originalPipelineRunName ≠ "" then "/" ++ so.originalPipelineRunName else "") ++
      " ") :
    (so.status = "in_progress" →
      (createStatusMapped po so).title = "CI has Started" ∧
      (createStatusMapped po so).summary = pre ++ "is running.") ∧
    (so.status ≠ "in_progress" →
      (so.conclusion = "success" →
        (createStatusMapped po so).title = "Success" ∧
        (createStatusMapped po so).summary =
          pre ++ "has <b>successfully</b> validated your commit.") ∧
      (so.conclusion = "failure" →
        (createStatusMapped po so).title = "Failed" ∧
        (createStatusMapped po so).summary = pre ++ "has <b>failed</b>.") ∧
      (so.conclusion = "skipped" →
        (createStatusMapped po so).title = "Skipped" ∧
        (createStatusMapped po so).summary = pre ++ "is skipping this commit.") ∧
      (so.conclusion = "neutral" →
        (createStatusMapped po so).title = "Unknown" ∧
        (createStatusMapped po so).summary =
          pre ++ "doesn\x27t know what happened with this commit.")) := by
  subst hpre
  constructor
  · intro h
    constructor <;> simp [createStatusMapped, h]
  · intro h
    refine ⟨fun h2 => ?_, fun h2 => ?_, fun h2 => ?_, fun h2 => ?_⟩ <;>
      constructor <;> simp [createStatusMapped, h, h2]

/-- Application options used in the mapper counterexample. -/
def po5 : PacOpts := ⟨"Pipelines as Code", false, 3⟩

/-- A completed successful request with no original run name. -/
def so5 : StatusOpts :=
  { pipelineRun := none, pipelineRunName := "p", originalPipelineRunName := "",
    status := "completed", conclusion := "success", text := "",
    detailsURL := "", title := "", summary := "" }

/-- C5 counterexample: the summary actually submitted for a successful
commit carries HTML bold markup, so it is not the plain-text summary of
the specification table. -/
theorem summary_carries_markup :
    (createStatusMapped po5 so5).title = "Success" ∧
    (createStatusMapped po5 so5).summary =
      "Pipelines as Code has <b>successfully</b> validated your commit." ∧
    (createStatusMapped po5 so5).summary ≠
      "Pipelines as Code has successfully validated your commit." := by decide

/-- Application options used in the mapper witness. -/
def po5w : PacOpts := ⟨"app", false, 3⟩

/-- A failed request with an original run name. -/
def so5w : StatusOpts := { so5 with originalPipelineRunName := "run", conclusion := "failure" }

/-- The same request while in progress. -/
def so5wProg : StatusOpts := { so5w with status := "in_progress" }

/-- Witness for C5 (amended) at concrete inputs, exercising the failure
row, the prefix composition and the in_progress override. -/
theorem createStatusMapped_table_witness :
    (createStatusMapped po5w so5w).title = "Failed" ∧
    (createStatusMapped po5w so5w).summary = "app/run has <b>failed</b>." ∧
    (createStatusMapped po5w so5wProg).title = "CI has Started" ∧
    (createStatusMapped po5w so5wProg).summary = "app/run is running." := by
  have h1 := (createStatusMapped_table po5w so5w "app/run " (by decide)).2 (by decide)
  have h2 := (createStatusMapped_table po5w so5wProg "app/run " (by decide)).1 (by decide)
  exact ⟨(h1.2.1 rfl).1, ((h1.2.1 rfl).2).trans (by decide), h2.1, h2.2.trans (by decide)⟩

/-- C6: in commit-status mode an outcome of skipped or neutral is
submitted as state "success", while phase in_progress is submitted as
state "pending" whatever the outcome was, and the submitted status is the
first call of every commit-status trace. -/
theorem commit_status_coercion (po : PacOpts) (so : StatusOpts) :
    ((so.conclusion = "skipped" ∨ so.conclusion = "neutral") → so.status ≠ "in_progress" →
      (commitGhStatus po so).state = "success") ∧
    (so.status = "in_progress" → (commitGhStatus po so).state = "pending") ∧
    (∀ (cenv : CommitEnv) (re : Event),
      (createStatusCommit cenv re po so).1.head? =
        some (CommitCall.createStatus re.organization re.repository re.sha
          (commitGhStatus po so))) := by
  refine ⟨fun h hne => ?_, fun h => ?_, fun cenv re => ?_⟩
  · rcases h with h | h <;> simp [commitGhStatus, coercedCommitStatus, h, hne]
  · by_cases hd : (so.conclusion = "skipped" ∨ so.conclusion = "neutral") <;>
      simp [commitGhStatus, coercedCommitStatus, h, hd]
  · by_cases h1 : cenv.createStatusFails <;>
      by_cases h2 : ((coercedCommitStatus so).status = "completed" ∧
        (coercedCommitStatus so).text ≠ "" ∧ re.eventType = "pull_request") <;>
      simp [createStatusCommit, h1, h2]

/-- A skipped request submitted over the commit-status API. -/
def soSkip6 : StatusOpts := { so5 with conclusion := "skipped" }

/-- A neutral request still in progress. -/
def soProg6 : StatusOpts := { so5 with conclusion := "neutral", status := "in_progress" }

/-- A commit-status environment where both calls succeed. -/
def cenv6 : CommitEnv := ⟨false, false⟩

/-- A push event without installation id. -/
def ev6 : Event := ⟨"o", "r", "s", "push", 0, 0⟩

/-- Witness for C6 at concrete inputs: skipped submits success, an
in-progress neutral run submits pending. -/
theorem commit_status_coercion_witness :
    (commitGhStatus po5 soSkip6).state = "success" ∧
    (commitGhStatus po5 soProg6).state = "pending" ∧
    (createStatusCommit cenv6 ev6 po5 soSkip6).1.head? =
      some (CommitCall.createStatus "o" "r" "s" (commitGhStatus po5 soSkip6)) := by
  refine ⟨(commit_status_coercion po5 soSkip6).1 (Or.inl rfl) (by decide),
    (commit_status_coercion po5 soProg6).2.1 rfl, ?_⟩
  exact ((commit_status_coercion po5 soSkip6).2.2 cenv6 ev6).trans (by decide)

end PaC
